import Mathlib

/-!
# sydney: session engine and dispatcher gate

A shallow embedding of `sydney/sydney.go` (framing, conversation negotiation,
`Reset`, `GetConn`, `Ask` and its read loop) and of the in-flight gate of
`tg/bot.go`, followed by the properties established about them.

Bytes are natural numbers, a byte buffer is a `List Nat`.  Everything the
program obtains from outside (dial and write results, the chunks a read
returns, the HTTP exchange) is an explicit input of the embedded function.
Library code that the repository calls but does not contain
(`json.Marshal`, `gjson`, the case-orbit table behind `strings.EqualFold`)
is collected in the structure `Library`, over which the definitions are
parametric.
-/

namespace sydney

/-! ## Data model -/

/-- `provider.SydneyConfig`, whose declaration is not among the sources: its
fields are the three that `CreateConversation` reads from `r.cfg` and that
`sydney_test.go` sets. -/
structure SydneyConfig where
  CookieU : String
  UseProxy : Bool
  HttpProxy : String
  deriving DecidableEq, Repr

/-- `payload.go`, `type Conversation`; the nested `Result` struct is flattened
into `ResultValue` and `ResultMessage`.  A field absent from the JSON body is
the empty string. -/
structure Conversation where
  ConversationId : String
  ClientId : String
  ConversationSignature : String
  ResultValue : String
  ResultMessage : String
  deriving DecidableEq, Repr

/-- `type Sydney struct` without its logger.  `Conv` is a pointer (`none` is
nil), `conn` is a pointer to a websocket connection, here the number that
identifies the connection (`none` is nil).  `invocationId` is a Go `int`. -/
structure Sydney where
  cfg : SydneyConfig
  Conv : Option Conversation
  invocationId : Int
  conn : Option Nat
  deriving DecidableEq, Repr

/-- `NewSydney`: nil `Conv`, zero `invocationId`, nil `conn`. -/
def NewSydney (cfg : SydneyConfig) : Sydney :=
  { cfg := cfg, Conv := none, invocationId := 0, conn := none }

/-- Two's-complement wrap-around of a 64-bit Go `int`. -/
def wrapInt (x : Int) : Int := (x + 2 ^ 63) % 2 ^ 64 - 2 ^ 63

/-- The question map built by `buildQuestion` (`arguments[0]` flattened next to
the top-level keys). -/
structure Question where
  source : String
  optionsSets : List String
  allowedMessageTypes : List String
  sliceIds : List String
  traceId : String
  isStartOfSession : Bool
  message : List (String × String)
  timestamp : String
  conversationSignature : String
  participantId : String
  conversationId : String
  invocationId : String
  target : String
  type : Nat
  deriving DecidableEq, Repr

/-- The two maps handed to `appendIdentifier`: the handshake request
(protocol json, version 1) and a question. -/
inductive Message where
  | handshake
  | question (q : Question)
  deriving DecidableEq, Repr

/-- What the read loop reads off a segment through gjson:
`Get("type").Int()`, `Get("item.result.value").String()`,
`Get("item.result.message").String()`, `Get("item.messages.1.text").String()`. -/
structure AnswerFrame where
  _type : Int
  value : String
  message : String
  text : String
  deriving DecidableEq, Repr

/-- Library code called by the repository and not part of it.
* `jsonMarshal`: `json.Marshal` on the maps of `appendIdentifier`;
* `gjson`: `gjson.Parse` of a segment followed by the four lookups of the read
  loop;
* `orbit lo hi`: the general case of `strings.EqualFold` for two different
  runes `lo < hi` with `hi` outside ASCII, which walks the case-orbit table of
  `unicode.SimpleFold` from `lo` and reports whether it arrives at `hi`. -/
structure Library where
  jsonMarshal : Message → Except String (List Nat)
  gjson : List Nat → AnswerFrame
  orbit : Nat → Nat → Bool

/-! ## Framing -/

/-- `const DELIMITER byte = 0x1e`. -/
def DELIMITER : Nat := 0x1e

/-- `bytes.Split(s, []byte{sep})` for a one-byte separator: the pieces of `s`
between consecutive occurrences of `sep`, empty pieces included; a buffer with
`k` separators gives `k + 1` pieces. -/
def bytesSplit (sep : Nat) : List Nat → List (List Nat)
  | [] => [[]]
  | b :: bs =>
    if b = sep then [] :: bytesSplit sep bs
    else
      match bytesSplit sep bs with
      | [] => [[b]]
      | seg :: segs => (b :: seg) :: segs

/-- The segments of a chunk that reach the parser in the read loop of `Ask`:
`messages := bytes.Split(p, []byte{DELIMITER})`, and every `message` with
`len(message) == 0` is skipped. -/
def decodeFrames (p : List Nat) : List (List Nat) :=
  (bytesSplit DELIMITER p).filter (fun message => message.length != 0)

/-- `appendIdentifier`: serialise the message, then append the delimiter; a
serialisation error is returned as it is.  `jsonMarshal` stands for
`json.Marshal`. -/
def appendIdentifier (jsonMarshal : Message → Except String (List Nat)) (msg : Message) :
    Except String (List Nat) :=
  match jsonMarshal msg with
  | .error err => .error err
  | .ok data => .ok (data ++ [DELIMITER])

/-- Run decomposition of a buffer, stated without the splitting code:
`RunsOf p segs` holds when `p` is a (possibly empty) block of delimiters,
followed by the first segment, followed by the rest, where every segment is
non-empty and delimiter-free and what follows a segment is either the end of the
buffer or starts with a delimiter (so each segment is a maximal run). -/
inductive RunsOf : List Nat → List (List Nat) → Prop
  | done (gap : List Nat) : (∀ b ∈ gap, b = DELIMITER) → RunsOf gap []
  | run (gap seg rest : List Nat) (segs : List (List Nat)) :
      (∀ b ∈ gap, b = DELIMITER) → seg ≠ [] → DELIMITER ∉ seg →
      (rest = [] ∨ rest.head? = some DELIMITER) → RunsOf rest segs →
      RunsOf (gap ++ seg ++ rest) (seg :: segs)

/-! ## Case-insensitive comparison -/

/-- One step of `strings.EqualFold` on the runes `sr` (of `s`) and `tr` (of
`t`): equal runes match; otherwise the two are ordered, two ASCII runes match
when the smaller is an upper-case letter and the larger is that letter plus
`'a' - 'A'`, and any other pair is decided by the case-orbit table. -/
def foldRune (orbit : Nat → Nat → Bool) (sr tr : Nat) : Bool :=
  if tr = sr then true
  else
    let lo := min sr tr
    let hi := max sr tr
    if hi < 0x80 then decide (0x41 ≤ lo ∧ lo ≤ 0x5A ∧ hi = lo + 0x20)
    else orbit lo hi

/-- `strings.EqualFold` on rune sequences: rune by rune, false at the first
pair that does not match or when one string ends before the other. -/
def equalFoldRunes (orbit : Nat → Nat → Bool) : List Nat → List Nat → Bool
  | [], t => t.isEmpty
  | _ :: _, [] => false
  | sr :: s, tr :: t => foldRune orbit sr tr && equalFoldRunes orbit s t

/-- `strings.EqualFold(s, t)`. -/
def EqualFold (orbit : Nat → Nat → Bool) (s t : String) : Bool :=
  equalFoldRunes orbit (s.toList.map Char.toNat) (t.toList.map Char.toNat)

/-- ASCII lower-casing of one rune. -/
def asciiLower (r : Nat) : Nat := if 0x41 ≤ r ∧ r ≤ 0x5A then r + 0x20 else r

/-! ## Conversation negotiation -/

/-- The body of the HTTP response as `CreateConversation` sees it: `io.ReadAll`
fails, `json.Unmarshal` fails, or the body `raw` parses to `conv`. -/
inductive Body where
  | readError (err : String)
  | parseError (err : String)
  | parsed (raw : String) (conv : Conversation)
  deriving DecidableEq, Repr

/-- One run of the outside world for `CreateConversation`: the error of
`url.Parse(r.cfg.HttpProxy)`, if any (looked at only when `UseProxy` is set),
and the result of `client.Do`: an error, or a status code with a body.
(`cookiejar.New(nil)`, `url.Parse` of the fixed address and `http.NewRequest`
with the fixed method and address do not fail.) -/
structure Exchange where
  proxyParse : Option String
  reply : Except String (Nat × Body)

/-- `http.StatusOK`. -/
def StatusOK : Nat := 200

/-- `Sydney.CreateConversation`: the session afterwards and the returned error
(`none` is nil). -/
def CreateConversation (r : Sydney) (x : Exchange) : Sydney × Option String :=
  match r.cfg.UseProxy, x.proxyParse with
  | true, some err => (r, some err)
  | _, _ =>
    match x.reply with
    | .error err => (r, some err)
    | .ok (status, body) =>
      if status ≠ StatusOK then (r, some "authentication failed")
      else
        match body with
        | .readError err => (r, some err)
        | .parseError err => (r, some err)
        | .parsed raw conv =>
          if conv.ResultValue = "UnauthorizedRequest" then
            (r, some (conv.ResultMessage ++ " " ++ conv.ResultValue))
          else if conv.ConversationId = "" ∨ conv.ConversationSignature = "" then
            (r, some raw)
          else ({ r with Conv := some conv }, none)

/-! ## Connection handling -/

/-- `Sydney.Reset`: close and drop the connection if there is one, zero the
counter.  The second component lists the connections that were closed. -/
def Reset (r : Sydney) : Sydney × List Nat :=
  match r.conn with
  | some c => ({ r with conn := none, invocationId := 0 }, [c])
  | none => ({ r with invocationId := 0 }, [])

/-- One connection attempt of the outside world: the result of
`websocket.DefaultDialer.Dial`, and the errors (if any) of the handshake write
and of the handshake read. -/
structure DialAttempt where
  dial : Except String Nat
  handshakeWrite : Option String
  handshakeRead : Option String
  deriving Repr

/-- `Sydney.Handshake`: frame the handshake request, write it, read one reply;
the first error met is returned. -/
def Handshake (L : Library) (d : DialAttempt) : Option String :=
  match appendIdentifier L.jsonMarshal Message.handshake with
  | .error err => some err
  | .ok _ =>
    match d.handshakeWrite with
    | some err => some err
    | none => d.handshakeRead

/-- `Sydney.GetConn`: with a connection in the session it is returned as it
is; otherwise `r.conn` is assigned what `Dial` returned (nil on a dial error)
and the handshake is run on it.  A handshake error leaves the dialled
connection in `r.conn`. -/
def GetConn (L : Library) (r : Sydney) (d : DialAttempt) : Sydney × Except String Nat :=
  match r.conn with
  | some c => (r, .ok c)
  | none =>
    match d.dial with
    | .error err => ({ r with conn := none }, .error err)
    | .ok c =>
      match Handshake L d with
      | some err => ({ r with conn := some c }, .error err)
      | none => ({ r with conn := some c }, .ok c)

/-! ## Building a question -/

/-- `Sydney.buildQuestion`: `none` when `r.Conv` is nil (the field accesses
panic); otherwise the counter is incremented and the framed question, or the
serialisation error, is returned.  `traceId` is `uuid.New().String()` and
`timestamp` is `time.Now().Format(time.RFC3339)`. -/
def buildQuestion (L : Library) (r : Sydney) (prompt traceId timestamp : String) :
    Option (Sydney × Except String (List Nat)) :=
  match r.Conv with
  | none => none
  | some conv =>
    let question : Question :=
      { source := "cib"
        optionsSets := ["nlu_direct_response_filter", "deepleo", "disable_emoji_spoken_text",
          "responsible_ai_policy_235", "enablemm", "harmonyv3", "trn8req120", "rai253",
          "h3topp", "cricinfo", "cricinfov2", "localtime", "dv3sugg"]
        allowedMessageTypes := ["Chat", "InternalSearchQuery", "InternalSearchResult",
          "Disengaged", "InternalLoaderMessage", "RenderCardRequest", "AdsQuery",
          "SemanticSerp", "GenerateContentQuery", "SearchQuery"]
        sliceIds := ["checkauth", "222dtappids0", "302limit", "302limit", "228h3adss0",
          "h3adss0", "301rai253", "301rai253", "303h3topp", "225cricinfo", "225cricinfo",
          "224local", "224local"]
        traceId := traceId
        isStartOfSession := decide (r.invocationId = 0)
        message := [("author", "user"), ("inputMethod", "Keyboard"), ("text", prompt),
          ("messageType", "Chat"), ("locale", "zh-CN"), ("market", "zh-CN"), ("region", "TW")]
        timestamp := timestamp
        conversationSignature := conv.ConversationSignature
        participantId := conv.ClientId
        conversationId := conv.ConversationId
        invocationId := toString r.invocationId
        target := "chat"
        type := 4 }
    let r1 := { r with invocationId := wrapInt (r.invocationId + 1) }
    some (r1, appendIdentifier L.jsonMarshal (Message.question question))

/-! ## The read loop -/

/-- The text sent on the channel when a read fails for good. -/
def fallbackFragment : String := "server internal error, please execute the /reset command"

/-- The fragment sent for a terminal frame: the failure message unless
`item.result.value` equals "success" under `strings.EqualFold`, else the text
of the second message. -/
def terminalFragment (L : Library) (f : AnswerFrame) : String :=
  if !EqualFold L.orbit f.value "success" then f.message else f.text

/-- The body of `for _, message := range messages` for one message, on the
pair (`finished`, fragments sent so far): an empty message is skipped, a frame
of type 1 does nothing, a frame of type 2 sets `finished` and sends one
fragment, any other type does nothing. -/
def handleMessage (L : Library) (st : Bool × List String) (message : List Nat) :
    Bool × List String :=
  if message.length = 0 then st
  else
    let result := L.gjson message
    if result._type = 1 then st
    else if result._type = 2 then (true, st.2 ++ [terminalFragment L result])
    else st

/-- The whole `for _, message := range messages` loop. -/
def handleMessages (L : Library) (messages : List (List Nat)) (st : Bool × List String) :
    Bool × List String :=
  messages.foldl (handleMessage L) st

/-- What a `conn.ReadMessage()` returns on a connection none of whose reads
has failed so far: a chunk, the error `io.EOF`, or another error.  An `eof`
carries the connection attempt a following `GetConn` makes if it has to dial. -/
inductive ReadEvent where
  | chunk (p : List Nat)
  | eof (redial : DialAttempt)
  | failure (err : String)
  deriving Repr

/-- The answer channel as its reader sees it: the fragments sent, in order,
whether the channel was closed after them, and whether the goroutine feeding it
panicked instead.  `closed = false` with `panicked = false` is a loop still
waiting in `ReadMessage`. -/
structure Channel where
  fragments : List String
  closed : Bool
  panicked : Bool := false
  deriving DecidableEq, Repr

/-- The websocket library keeps a read error of a connection: every later
`ReadMessage` on that connection returns the same error, and the call that is
the `readErrLimit`-th read of the failed connection panics ("repeated read on
failed websocket connection"). -/
def readErrLimit : Nat := 1000

/-- How the read loop leaves a connection whose read has returned `io.EOF`. -/
inductive AfterEOF where
  | panics (r : Sydney)
  | gaveUp (r : Sydney)
  | switched (r : Sydney) (c : Nat)
  deriving Repr

/-- The read loop from the `GetConn` that follows a read of `conn` that returned
`io.EOF`, where `n` more reads of `conn` fail before the one that panics.  Each
round is one `GetConn`: an error leaves the loop (`gaveUp`); another connection
than `conn` is read next (`switched`); `conn` itself is read again, which fails
with the same error, or panics when no failing read is left. -/
def rereadFailed (L : Library) (conn : Nat) (redial : DialAttempt) : Nat → Sydney → AfterEOF
  | 0, r => .panics r
  | n + 1, r =>
    match GetConn L r redial with
    | (r1, .error _) => .gaveUp r1
    | (r1, .ok c) => if c = conn then rereadFailed L conn redial n r1 else .switched r1 c

/-- The goroutine of `Ask`, reading from the connection `conn` (its local
variable), run on the successive results of `ReadMessage`.  `out` holds the
fragments already sent.  A chunk is split and handled; the loop goes on to the
next read only while `finished` is false.  After `io.EOF` the loop asks
`GetConn` for a connection and reads on: when that is `conn` again the read
fails again, up to the panic of the library; only a connection other than
`conn` delivers the reads that follow in the list. -/
def readLoop (L : Library) :
    Sydney → Nat → List ReadEvent → List String → Sydney × Channel
  | r, _, [], out => (r, { fragments := out, closed := false })
  | r, _, .failure _ :: _, out =>
    (r, { fragments := out ++ [fallbackFragment], closed := true })
  | r, conn, .eof redial :: rest, out =>
    match rereadFailed L conn redial (readErrLimit - 1) r with
    | .panics r1 => (r1, { fragments := out, closed := false, panicked := true })
    | .gaveUp r1 => (r1, { fragments := out ++ [fallbackFragment], closed := true })
    | .switched r1 c => readLoop L r1 c rest out
  | r, conn, .chunk p :: rest, out =>
    let st := handleMessages L (bytesSplit DELIMITER p) (false, out)
    if st.1 then (r, { fragments := st.2, closed := true })
    else readLoop L r conn rest st.2

/-! ## Ask -/

/-- The outside world during one call of `Ask`: the connection attempts of the
two possible `GetConn` calls, the errors (if any) of the two possible writes of
the question, the trace identifier and time stamp, and the reads of the loop. -/
structure AskEnv where
  dial1 : DialAttempt
  write1 : Option String
  dial2 : DialAttempt
  write2 : Option String
  traceId : String
  timestamp : String
  reads : List ReadEvent

/-- The error `errors.Wrap(cause, label)`. -/
structure WrappedError where
  label : String
  cause : String
  deriving DecidableEq, Repr

/-- What a call of `Ask` gives back: the pair (`answers`, `err`) it returns,
each possibly nil, or a panic. -/
inductive AskResult where
  | returned (answers : Option Channel) (err : Option WrappedError)
  | panicked
  deriving DecidableEq, Repr

/-- `Sydney.Ask`.  The session in the result is the one left when the call and
the goroutine it started are done, and the channel is given with all the
goroutine does to it.  In the retry branch the variable `err` returned by
`return nil, err` is the one assigned by the second `GetConn`, which is nil at
that point. -/
def Ask (L : Library) (r : Sydney) (prompt : String) (env : AskEnv) : Sydney × AskResult :=
  match GetConn L r env.dial1 with
  | (r1, .error err) => (r1, .returned none (some { label := "get conn", cause := err }))
  | (r1, .ok conn) =>
    match buildQuestion L r1 prompt env.traceId env.timestamp with
    | none => (r1, .panicked)
    | some (r2, .error err) => (r2, .returned none (some { label := "build question", cause := err }))
    | some (r2, .ok _) =>
      match env.write1 with
      | none =>
        let res := readLoop L r2 conn env.reads []
        (res.1, .returned (some res.2) none)
      | some _ =>
        let r3 := (Reset r2).1
        match GetConn L r3 env.dial2 with
        | (r4, .error err) => (r4, .returned none (some { label := "get conn 2", cause := err }))
        | (r4, .ok _) =>
          match env.write2 with
          | some err => (r4, .returned none (some { label := "write to ws", cause := err }))
          | none => (r4, .returned none none)

/-- Successive calls of `Ask` on one session, one per environment, stopping at
a call that panics: the session afterwards and the results in call order.  (A
goroutine that panics is recorded in the channel of its call; the calls listed
after it are kept, which adds runs and removes none.) -/
def askAll (L : Library) (r : Sydney) : List (String × AskEnv) → Sydney × List AskResult
  | [] => (r, [])
  | (prompt, env) :: calls =>
    match Ask L r prompt env with
    | (r1, .panicked) => (r1, [.panicked])
    | (r1, res) =>
      let more := askAll L r1 calls
      (more.1, res :: more.2)

/-- Whether a call of `Ask` returned a channel. -/
def AskResult.hasChannel : AskResult → Bool
  | .returned (some _) _ => true
  | _ => false

/-- A call result that is a channel with a nil error, or the error of the
first `GetConn`. -/
def plainResult (res : AskResult) : Prop :=
  (∃ ch, res = .returned (some ch) none) ∨
    (∃ cause, res = .returned none (some { label := "get conn", cause := cause }))

/-! ## Vocabulary for statements about the read loop -/

/-- Whether a segment is a terminal frame (type 2). -/
def isTerminal (L : Library) (seg : List Nat) : Bool := decide ((L.gjson seg)._type = 2)

/-- The fragments of the terminal frames among `segs`, in order. -/
def terminalFragments (L : Library) (segs : List (List Nat)) : List String :=
  (segs.filter (isTerminal L)).map (fun seg => terminalFragment L (L.gjson seg))

/-- A read that delivers a chunk without a terminal frame. -/
def quietChunk (L : Library) : ReadEvent → Prop
  | .chunk p => ∀ seg ∈ decodeFrames p, isTerminal L seg = false
  | _ => False

/-! ## Concrete data for evaluation -/

/-- The bytes of the handshake request text, an object with the keys protocol ("json") and
version (1). -/
def handshakeJson : List Nat :=
  [123, 34, 112, 114, 111, 116, 111, 99, 111, 108, 34, 58, 34, 106, 115, 111, 110, 34, 44, 34,
   118, 101, 114, 115, 105, 111, 110, 34, 58, 49, 125]

/-- The bytes of a terminal frame text: type 2, item.result.value "success",
item.messages of two entries with texts "hi" and "hello". -/
def successSegment : List Nat :=
  [123, 34, 116, 121, 112, 101, 34, 58, 50, 44, 34, 105, 116, 101, 109, 34, 58, 123, 34, 114,
   101, 115, 117, 108, 116, 34, 58, 123, 34, 118, 97, 108, 117, 101, 34, 58, 34, 115, 117, 99,
   99, 101, 115, 115, 34, 125, 44, 34, 109, 101, 115, 115, 97, 103, 101, 115, 34, 58, 91, 123,
   34, 116, 101, 120, 116, 34, 58, 34, 104, 105, 34, 125, 44, 123, 34, 116, 101, 120, 116, 34,
   58, 34, 104, 101, 108, 108, 111, 34, 125, 93, 125, 125]

/-- The bytes of a terminal frame text: type 2, item.result.value "error",
item.result.message "rate limited", no item.messages. -/
def errorSegment : List Nat :=
  [123, 34, 116, 121, 112, 101, 34, 58, 50, 44, 34, 105, 116, 101, 109, 34, 58, 123, 34, 114,
   101, 115, 117, 108, 116, 34, 58, 123, 34, 118, 97, 108, 117, 101, 34, 58, 34, 101, 114, 114,
   111, 114, 34, 44, 34, 109, 101, 115, 115, 97, 103, 101, 34, 58, 34, 114, 97, 116, 101, 32,
   108, 105, 109, 105, 116, 101, 100, 34, 125, 125, 125]

/-- The bytes of a delta frame text: an object with the one key type (1). -/
def deltaSegment : List Nat :=
  [123, 34, 116, 121, 112, 101, 34, 58, 49, 125]

/-- The frame gjson reads off `successSegment`. -/
def successFrame : AnswerFrame := { _type := 2, value := "success", message := "", text := "hello" }

/-- The frame gjson reads off `errorSegment`. -/
def errorFrame : AnswerFrame :=
  { _type := 2, value := "error", message := "rate limited", text := "" }

/-- The frame gjson reads off `deltaSegment`. -/
def deltaFrame : AnswerFrame := { _type := 1, value := "", message := "", text := "" }

/-- A terminal frame whose status is the upper-case spelling of the success
indicator. -/
def upperFrame : AnswerFrame :=
  { _type := 2, value := "SUCCESS", message := "rate limited", text := "hello" }

/-- A library instance for concrete evaluation.  The handshake request
serialises to its JSON text and a question to its invocation id between
brackets; the three segments above decode to their frames and any other segment
to the frame of zero values gjson gives for missing keys; the orbit table
holds the two orbits that leave ASCII (s, S and U+017F; k, K and U+212A). -/
def sampleLibrary : Library where
  jsonMarshal := fun msg =>
    match msg with
    | .handshake => .ok handshakeJson
    | .question q => .ok (0x5b :: q.invocationId.toList.map Char.toNat ++ [0x5d])
  gjson := fun seg =>
    if seg = successSegment then successFrame
    else if seg = errorSegment then errorFrame
    else if seg = deltaSegment then deltaFrame
    else { _type := 0, value := "", message := "", text := "" }
  orbit := fun lo hi =>
    (hi == 0x17F && (lo == 0x53 || lo == 0x73)) || (hi == 0x212A && (lo == 0x4B || lo == 0x6B))

/-- A question as `buildQuestion` makes it on the first turn, with the option
tables left empty. -/
def sampleQuestion : Question :=
  { source := "cib", optionsSets := [], allowedMessageTypes := [], sliceIds := [],
    traceId := "trace", isStartOfSession := true, message := [("text", "hi")],
    timestamp := "2023-03-01T00:00:00Z", conversationSignature := "sig-1",
    participantId := "client-1", conversationId := "conv-1", invocationId := "0",
    target := "chat", type := 4 }

/-- A negotiated identity. -/
def sampleConv : Conversation :=
  { ConversationId := "conv-1", ClientId := "client-1", ConversationSignature := "sig-1",
    ResultValue := "Success", ResultMessage := "" }

/-- A parsed body with conversation id and signature and without client id. -/
def noClientConv : Conversation :=
  { ConversationId := "conv-1", ClientId := "", ConversationSignature := "sig-1",
    ResultValue := "Success", ResultMessage := "" }

/-- A session that has negotiated `sampleConv` and holds no connection. -/
def sampleSession : Sydney :=
  { cfg := { CookieU := "cookie", UseProxy := false, HttpProxy := "" },
    Conv := some sampleConv, invocationId := 0, conn := none }

/-- A connection attempt that dials connection `c` and completes the
handshake. -/
def dialOk (c : Nat) : DialAttempt :=
  { dial := .ok c, handshakeWrite := none, handshakeRead := none }

/-- A connection attempt whose dial fails. -/
def dialRefused : DialAttempt :=
  { dial := .error "dial tcp: connection refused", handshakeWrite := none, handshakeRead := none }

/-- A turn in which everything works and the terminal success frame arrives in
the first chunk. -/
def plainTurn : AskEnv :=
  { dial1 := dialOk 1, write1 := none, dial2 := dialOk 2, write2 := none,
    traceId := "trace", timestamp := "2023-03-01T00:00:00Z",
    reads := [.chunk (successSegment ++ [DELIMITER])] }

/-- A turn in which no connection can be made. -/
def refusedTurn : AskEnv :=
  { dial1 := dialRefused, write1 := none, dial2 := dialRefused, write2 := none,
    traceId := "trace", timestamp := "2023-03-01T00:00:00Z", reads := [] }

/-- A turn in which the first write of the question fails, the reconnection
works and the second write succeeds. -/
def retryTurn : AskEnv :=
  { dial1 := dialOk 1, write1 := some "write: broken pipe", dial2 := dialOk 2, write2 := none,
    traceId := "trace", timestamp := "2023-03-01T00:00:00Z",
    reads := [.chunk (successSegment ++ [DELIMITER])] }

/-- A turn whose first read returns `io.EOF`; the list goes on with a chunk
that holds a delta frame and the terminal success frame. -/
def eofTurn : AskEnv :=
  { dial1 := dialOk 1, write1 := none, dial2 := dialOk 2, write2 := none,
    traceId := "trace", timestamp := "2023-03-01T00:00:00Z",
    reads := [.eof (dialOk 3),
      .chunk (deltaSegment ++ [DELIMITER] ++ successSegment ++ [DELIMITER])] }

/-- A chunk holding two terminal frames. -/
def twoTerminals : List Nat := successSegment ++ [DELIMITER] ++ errorSegment ++ [DELIMITER]

end sydney

/-! ## The dispatcher gate of `tg/bot.go` -/

namespace tg

/-- `provider.TelegramBotConfig`: the canned replies. -/
structure TelegramBotConfig where
  FallbackAnswer : String
  RepeatedAnswer : String
  deriving DecidableEq, Repr

/-- The part of `type Bot struct` the gate lives in.  `processed` is the map
`map[string]bool` (`none`: no entry), `bingData` records which users the session
cache holds an entry for, and `inFlight` counts the goroutines
`handleUserMessage` that have been started for a user and have not returned. -/
structure Bot where
  cfg : TelegramBotConfig
  processed : String → Option Bool
  bingData : String → Bool
  inFlight : String → Nat

/-- `NewBot`: empty map, empty cache, nothing running. -/
def NewBot (cfg : TelegramBotConfig) : Bot :=
  { cfg := cfg, processed := fun _ => none, bingData := fun _ => false, inFlight := fun _ => 0 }

/-- `Bot.GetProcessed`: the map lookup, false for a missing key. -/
def GetProcessed (b : Bot) (userId : String) : Bool := (b.processed userId).getD false

/-- `Bot.SetProcessed`. -/
def SetProcessed (b : Bot) (userId : String) (p : Bool) : Bot :=
  { b with processed := fun u => if u = userId then some p else b.processed u }

/-- `Bot.DeleteProcessed`. -/
def DeleteProcessed (b : Bot) (userId : String) : Bot :=
  { b with processed := fun u => if u = userId then none else b.processed u }

/-- What can happen to the gate.
* `update u`: the update loop of `Start` reaches line 135 with a text message
  of user `u`;
* `getSydney u created`: a running handler of `u` executes `GetSydney`, where
  `created` tells whether a missing session could be created;
* `handlerDone u`: a running handler of `u` returns, which runs its deferred
  `SetProcessed(u, false)`;
* `evicted u`: the cache drops the expired entry of `u` and calls the
  `OnEvicted` hook. -/
inductive Event where
  | update (tgUserId : String)
  | getSydney (tgUserId : String) (created : Bool)
  | handlerDone (tgUserId : String)
  | evicted (tgUserId : String)
  deriving DecidableEq, Repr

/-- One step of the dispatcher: the state afterwards and the reply sent by the
update loop itself, if any.  An event that cannot happen in the state (a handler
event without a running handler, an eviction without a cache entry) leaves the
state as it is. -/
def step (b : Bot) : Event → Bot × Option String
  | .update u =>
    if GetProcessed b u then (b, some b.cfg.RepeatedAnswer)
    else
      let b1 := SetProcessed b u true
      ({ b1 with inFlight := fun v => if v = u then b.inFlight u + 1 else b.inFlight v }, none)
  | .getSydney u created =>
    if 0 < b.inFlight u then
      ({ b with bingData := fun v => if v = u then (b.bingData u || created) else b.bingData v },
        none)
    else (b, none)
  | .handlerDone u =>
    if 0 < b.inFlight u then
      let b1 := SetProcessed b u false
      ({ b1 with inFlight := fun v => if v = u then b.inFlight u - 1 else b.inFlight v }, none)
    else (b, none)
  | .evicted u =>
    if b.bingData u then
      let b1 := DeleteProcessed b u
      ({ b1 with bingData := fun v => if v = u then false else b.bingData v }, none)
    else (b, none)

/-- The state after a sequence of events. -/
def run (b : Bot) : List Event → Bot
  | [] => b
  | e :: es => run (step b e).1 es

/-- Whether every eviction of user `u` in the sequence happens while no handler
of `u` is running. -/
def evictsOnlyIdle (u : String) (b : Bot) : List Event → Bool
  | [] => true
  | e :: es =>
    (match e with
      | .evicted v => if v = u then b.inFlight u == 0 else true
      | _ => true) && evictsOnlyIdle u (step b e).1 es

/-- The gate invariant for user `u`: at most one running handler, and the
busy mark is set while one runs. -/
def gateOk (u : String) (b : Bot) : Prop :=
  b.inFlight u ≤ 1 ∧ (0 < b.inFlight u → b.processed u = some true)

/-- The canned replies used in evaluations. -/
def sampleConfig : TelegramBotConfig :=
  { FallbackAnswer := "please retry", RepeatedAnswer := "still working on your last message" }

end tg

/-! # Properties -/

namespace sydney

/-! ### Splitting and run decompositions -/

theorem bytesSplit_ne_nil (sep : Nat) (p : List Nat) : bytesSplit sep p ≠ [] := by
  cases p with
  | nil => simp [bytesSplit]
  | cons b bs =>
    simp only [bytesSplit]
    split
    · simp
    · split <;> simp

theorem bytesSplit_cons_sep (sep : Nat) (bs : List Nat) :
    bytesSplit sep (sep :: bs) = [] :: bytesSplit sep bs := by
  simp [bytesSplit]

theorem bytesSplit_cons_other (sep b : Nat) (bs seg : List Nat) (segs : List (List Nat))
    (hb : b ≠ sep) (hs : bytesSplit sep bs = seg :: segs) :
    bytesSplit sep (b :: bs) = (b :: seg) :: segs := by
  simp [bytesSplit, hb, hs]

theorem decodeFrames_nil : decodeFrames [] = [] := by
  simp [decodeFrames, bytesSplit]

theorem decodeFrames_cons_delim (bs : List Nat) :
    decodeFrames (DELIMITER :: bs) = decodeFrames bs := by
  simp [decodeFrames, bytesSplit_cons_sep]

theorem decodeFrames_gap (gap q : List Nat) (hg : ∀ b ∈ gap, b = DELIMITER) :
    decodeFrames (gap ++ q) = decodeFrames q := by
  induction gap with
  | nil => rfl
  | cons g gs ih =>
    have hg0 : g = DELIMITER := hg g (by simp)
    subst hg0
    rw [List.cons_append, decodeFrames_cons_delim]
    exact ih (fun b hb => hg b (by simp [hb]))

/-- Splitting a delimiter-free block followed by `rest`: the block joins the
first piece of `rest`. -/
theorem bytesSplit_append_free (seg rest h : List Nat) (t : List (List Nat))
    (hfree : DELIMITER ∉ seg) (hr : bytesSplit DELIMITER rest = h :: t) :
    bytesSplit DELIMITER (seg ++ rest) = (seg ++ h) :: t := by
  induction seg with
  | nil => simpa using hr
  | cons b bs ih =>
    have hb : b ≠ DELIMITER := fun e => hfree (by simp [e])
    have hbs : DELIMITER ∉ bs := fun e => hfree (by simp [e])
    rw [List.cons_append, bytesSplit_cons_other DELIMITER b (bs ++ rest) (bs ++ h) t hb (ih hbs)]
    rfl

theorem bytesSplit_head_of_boundary (rest : List Nat)
    (hrest : rest = [] ∨ rest.head? = some DELIMITER) :
    ∃ t, bytesSplit DELIMITER rest = [] :: t ∧ decodeFrames rest = t.filter (fun m => m.length != 0) := by
  rcases hrest with h | h
  · subst h
    exact ⟨[], by simp [bytesSplit], by simp [decodeFrames, bytesSplit]⟩
  · cases rest with
    | nil => simp at h
    | cons c cs =>
      simp at h
      subst h
      exact ⟨bytesSplit DELIMITER cs, bytesSplit_cons_sep _ _, by simp [decodeFrames, bytesSplit_cons_sep]⟩

theorem decodeFrames_run (seg rest : List Nat) (hne : seg ≠ []) (hfree : DELIMITER ∉ seg)
    (hrest : rest = [] ∨ rest.head? = some DELIMITER) :
    decodeFrames (seg ++ rest) = seg :: decodeFrames rest := by
  obtain ⟨t, ht, hd⟩ := bytesSplit_head_of_boundary rest hrest
  have hs := bytesSplit_append_free seg rest [] t hfree ht
  have hlen : seg.length ≠ 0 := by
    intro h; exact hne (List.length_eq_zero.mp h)
  rw [hd]
  simp [decodeFrames, hs, hlen]

theorem RunsOf_unique (p : List Nat) (segs : List (List Nat)) (h : RunsOf p segs) :
    segs = decodeFrames p := by
  induction h with
  | done gap hg =>
    have := decodeFrames_gap gap [] hg
    simp [decodeFrames_nil] at this
    exact this.symm
  | run gap seg rest segs hg hne hfree hrest _ ih =>
    rw [List.append_assoc, decodeFrames_gap gap _ hg, decodeFrames_run seg rest hne hfree hrest, ih]

theorem RunsOf_cons_delim (bs : List Nat) (segs : List (List Nat)) (h : RunsOf bs segs) :
    RunsOf (DELIMITER :: bs) segs := by
  cases h with
  | done gap hg =>
    exact RunsOf.done _ (by
      intro b hb
      rcases List.mem_cons.mp hb with e | e
      · exact e
      · exact hg b e)
  | run gap seg rest segs hg hne hfree hrest hr =>
    have := RunsOf.run (DELIMITER :: gap) seg rest segs (by
      intro b hb
      rcases List.mem_cons.mp hb with e | e
      · exact e
      · exact hg b e) hne hfree hrest hr
    simpa using this

/-- The first piece of a split is delimiter-free, and what the buffer holds
after it is nothing or starts with a delimiter. -/
theorem bytesSplit_first (p seg : List Nat) (segs : List (List Nat))
    (h : bytesSplit DELIMITER p = seg :: segs) :
    DELIMITER ∉ seg ∧ ∃ rest, p = seg ++ rest ∧ (rest = [] ∨ rest.head? = some DELIMITER) ∧
      decodeFrames rest = segs.filter (fun m => m.length != 0) := by
  induction p generalizing seg segs with
  | nil =>
    simp [bytesSplit] at h
    obtain ⟨h1, h2⟩ := h
    subst h1 h2
    exact ⟨by simp, [], by simp, Or.inl rfl, by simp [decodeFrames_nil]⟩
  | cons b bs ih =>
    by_cases hb : b = DELIMITER
    · subst hb
      rw [bytesSplit_cons_sep] at h
      simp at h
      obtain ⟨h1, h2⟩ := h
      subst h1 h2
      exact ⟨by simp, DELIMITER :: bs, by simp, Or.inr (by simp),
        by simp [decodeFrames, bytesSplit_cons_sep]⟩
    · obtain ⟨s0, ss, hs⟩ : ∃ s0 ss, bytesSplit DELIMITER bs = s0 :: ss := by
        cases hsp : bytesSplit DELIMITER bs with
        | nil => exact absurd hsp (bytesSplit_ne_nil _ _)
        | cons s0 ss => exact ⟨s0, ss, rfl⟩
      rw [bytesSplit_cons_other DELIMITER b bs s0 ss hb hs] at h
      simp at h
      obtain ⟨h1, h2⟩ := h
      subst h1 h2
      obtain ⟨hfree, rest, hp, hrest, hdec⟩ := ih s0 ss hs
      refine ⟨?_, rest, by simp [hp], hrest, hdec⟩
      intro hmem
      rcases List.mem_cons.mp hmem with e | e
      · exact hb e.symm
      · exact hfree e

theorem RunsOf_decodeFrames_aux (n : Nat) :
    ∀ p : List Nat, p.length = n → RunsOf p (decodeFrames p) := by
  induction n using Nat.strong_induction_on with
  | _ n ih =>
    intro p hn
    obtain ⟨s0, ss, hs⟩ : ∃ s0 ss, bytesSplit DELIMITER p = s0 :: ss := by
      cases hsp : bytesSplit DELIMITER p with
      | nil => exact absurd hsp (bytesSplit_ne_nil _ _)
      | cons s0 ss => exact ⟨s0, ss, rfl⟩
    obtain ⟨hfree, rest, hp, hrest, hdec⟩ := bytesSplit_first p s0 ss hs
    by_cases h0 : s0 = []
    · subst h0
      simp at hp
      subst hp
      rcases hrest with e | e
      · subst e
        rw [decodeFrames_nil]
        exact RunsOf.done [] (by simp)
      · cases p with
        | nil => simp at e
        | cons c cs =>
          simp at e
          subst e
          rw [decodeFrames_cons_delim]
          exact RunsOf_cons_delim cs _ (ih cs.length (by simp [← hn]) cs rfl)
    · have hdp : decodeFrames p = s0 :: decodeFrames rest := by
        rw [hp]; exact decodeFrames_run s0 rest h0 hfree hrest
      have hlt : rest.length < n := by
        have : 0 < s0.length := List.length_pos.mpr h0
        rw [← hn, hp, List.length_append]; omega
      have := RunsOf.run [] s0 rest (decodeFrames rest) (by simp) h0 hfree hrest
        (ih rest.length hlt rest rfl)
      rw [hdp]
      simpa [← hp] using this

theorem RunsOf_decodeFrames (p : List Nat) : RunsOf p (decodeFrames p) :=
  RunsOf_decodeFrames_aux p.length p rfl

theorem mem_decodeFrames (p seg : List Nat) (h : seg ∈ decodeFrames p) :
    seg ≠ [] ∧ DELIMITER ∉ seg := by
  have hr := RunsOf_decodeFrames p
  generalize decodeFrames p = segs at h hr
  induction hr with
  | done gap _ => simp at h
  | run gap s rest segs _ hne hfree _ _ ih =>
    rcases List.mem_cons.mp h with e | e
    · subst e; exact ⟨hne, hfree⟩
    · exact ih e

/-! ### The message loop -/

theorem handleMessage_empty (L : Library) (st : Bool × List String) (m : List Nat)
    (h : m.length = 0) : handleMessage L st m = st := by
  simp [handleMessage, h]

theorem handleMessage_terminal (L : Library) (st : Bool × List String) (m : List Nat)
    (hm : m.length ≠ 0) (h : isTerminal L m = true) :
    handleMessage L st m = (true, st.2 ++ [terminalFragment L (L.gjson m)]) := by
  have h2 : (L.gjson m)._type = 2 := by simpa [isTerminal] using h
  simp [handleMessage, hm, h2]

theorem handleMessage_other (L : Library) (st : Bool × List String) (m : List Nat)
    (h : isTerminal L m = false) : handleMessage L st m = st := by
  have h2 : (L.gjson m)._type ≠ 2 := by simpa [isTerminal] using h
  unfold handleMessage
  split
  · rfl
  · simp only [h2, if_false, ite_self]

/-- The loop over the pieces of a split sees exactly the non-empty ones. -/
theorem handleMessages_filter (L : Library) (messages : List (List Nat))
    (st : Bool × List String) :
    handleMessages L messages st =
      handleMessages L (messages.filter (fun m => m.length != 0)) st := by
  induction messages generalizing st with
  | nil => rfl
  | cons m ms ih =>
    have ih2 : ∀ st, List.foldl (handleMessage L) st ms =
        List.foldl (handleMessage L) st (ms.filter (fun m => m.length != 0)) := ih
    by_cases hm : m.length = 0
    · have hf : (m :: ms).filter (fun m => m.length != 0) =
          ms.filter (fun m => m.length != 0) := by simp [hm]
      rw [hf]
      simp only [handleMessages, List.foldl_cons, handleMessage_empty L st m hm]
      exact ih2 st
    · have hf : (m :: ms).filter (fun m => m.length != 0) =
          m :: ms.filter (fun m => m.length != 0) := by simp [hm]
      rw [hf]
      simp only [handleMessages, List.foldl_cons]
      exact ih2 _

theorem handleMessages_split (L : Library) (p : List Nat) (st : Bool × List String) :
    handleMessages L (bytesSplit DELIMITER p) st = handleMessages L (decodeFrames p) st := by
  rw [handleMessages_filter]; rfl

/-- What the loop does on a list of non-empty segments. -/
theorem handleMessages_frames (L : Library) (segs : List (List Nat))
    (hne : ∀ seg ∈ segs, seg ≠ []) (st : Bool × List String) :
    handleMessages L segs st =
      (st.1 || segs.any (isTerminal L), st.2 ++ terminalFragments L segs) := by
  induction segs generalizing st with
  | nil => simp [handleMessages, terminalFragments]
  | cons m ms ih =>
    have hm : m.length ≠ 0 := by
      intro h; exact hne m (by simp) (List.length_eq_zero.mp h)
    have ih2 := fun st => ih (fun seg hs => hne seg (by simp [hs])) st
    simp only [handleMessages, List.foldl_cons] at ih2 ⊢
    cases ht : isTerminal L m with
    | true =>
      rw [handleMessage_terminal L st m hm ht, ih2]
      simp [terminalFragments, ht]
    | false =>
      rw [handleMessage_other L st m ht, ih2]
      simp [terminalFragments, ht]

theorem handleMessages_chunk (L : Library) (p : List Nat) (out : List String) :
    handleMessages L (bytesSplit DELIMITER p) (false, out) =
      ((decodeFrames p).any (isTerminal L), out ++ terminalFragments L (decodeFrames p)) := by
  rw [handleMessages_split, handleMessages_frames L _ (fun seg hs => (mem_decodeFrames p seg hs).1)]
  simp

theorem terminalFragments_quiet (L : Library) (segs : List (List Nat))
    (h : ∀ seg ∈ segs, isTerminal L seg = false) : terminalFragments L segs = [] := by
  simp only [terminalFragments, List.map_eq_nil_iff, List.filter_eq_nil_iff]
  intro seg hs
  simp [h seg hs]

/-! ### The read loop -/

theorem GetConn_held (L : Library) (r : Sydney) (d : DialAttempt) (c : Nat)
    (h : r.conn = some c) : GetConn L r d = (r, .ok c) := by
  simp [GetConn, h]

theorem readLoop_chunk (L : Library) (r : Sydney) (conn : Nat) (p : List Nat)
    (rest : List ReadEvent) (out : List String) :
    readLoop L r conn (.chunk p :: rest) out =
      if (decodeFrames p).any (isTerminal L) then
        (r, { fragments := out ++ terminalFragments L (decodeFrames p), closed := true })
      else readLoop L r conn rest (out ++ terminalFragments L (decodeFrames p)) := by
  simp only [readLoop, handleMessages_chunk]

/-- Chunks without a terminal frame are passed over without a trace. -/
theorem readLoop_quiet (L : Library) (r : Sydney) (conn : Nat) (pre rest : List ReadEvent)
    (out : List String) (h : ∀ e ∈ pre, quietChunk L e) :
    readLoop L r conn (pre ++ rest) out = readLoop L r conn rest out := by
  induction pre with
  | nil => rfl
  | cons e es ih =>
    have ih2 := ih (fun e he => h e (by simp [he]))
    have he := h e (by simp)
    cases e with
    | chunk p =>
      simp only [quietChunk] at he
      have hany : (decodeFrames p).any (isTerminal L) = false := by
        simp only [List.any_eq_false]
        intro seg hs
        simp [he seg hs]
      rw [List.cons_append, readLoop_chunk, hany, terminalFragments_quiet L _ he]
      simpa using ih2
    | eof d => exact absurd he (by simp [quietChunk])
    | failure err => exact absurd he (by simp [quietChunk])

/-- While the session holds the connection that failed, every `GetConn` hands
it back and the repeated reads end in the panic. -/
theorem rereadFailed_held (L : Library) (r : Sydney) (conn : Nat) (redial : DialAttempt)
    (h : r.conn = some conn) (n : Nat) : rereadFailed L conn redial n r = .panics r := by
  induction n with
  | zero => rfl
  | succ n ih => simp only [rereadFailed, GetConn_held L r redial conn h, if_true, ih]

/-- An `io.EOF` read on the connection the session holds ends in the panic,
whatever the list holds after it. -/
theorem readLoop_eof_held (L : Library) (r : Sydney) (conn : Nat) (redial : DialAttempt)
    (rest : List ReadEvent) (out : List String) (h : r.conn = some conn) :
    readLoop L r conn (.eof redial :: rest) out =
      (r, { fragments := out, closed := false, panicked := true }) := by
  simp only [readLoop, rereadFailed_held L r conn redial h]

/-! ### Case folding on ASCII -/

theorem foldRune_self (orbit : Nat → Nat → Bool) (r : Nat) : foldRune orbit r r = true := by
  simp [foldRune]

theorem equalFoldRunes_self (orbit : Nat → Nat → Bool) (s : List Nat) :
    equalFoldRunes orbit s s = true := by
  induction s with
  | nil => rfl
  | cons r rs ih => simp [equalFoldRunes, foldRune_self, ih]

theorem EqualFold_self (orbit : Nat → Nat → Bool) (s : String) : EqualFold orbit s s = true :=
  equalFoldRunes_self orbit _

theorem foldRune_lower (orbit : Nat → Nat → Bool) (sr tr : Nat) (hs : sr < 0x80)
    (ht : 0x61 ≤ tr ∧ tr ≤ 0x7A) : foldRune orbit sr tr = decide (asciiLower sr = tr) := by
  unfold foldRune asciiLower
  by_cases h : tr = sr
  · subst h
    have : ¬ (0x41 ≤ tr ∧ tr ≤ 0x5A) := by omega
    simp [this]
  · have hhi : max sr tr < 0x80 := by
      rcases le_total sr tr with e | e
      · rw [max_eq_right e]; omega
      · rw [max_eq_left e]; omega
    simp only [h, if_false, hhi, if_true]
    rcases le_total sr tr with e | e
    · rw [min_eq_left e, max_eq_right e]
      by_cases hu : 0x41 ≤ sr ∧ sr ≤ 0x5A
      · simp only [hu, if_true]
        by_cases hv : tr = sr + 0x20
        · simp [hu, hv]
        · have : ¬ (sr + 0x20 = tr) := fun e2 => hv e2.symm
          simp [hv, this]
      · have : ¬ (sr = tr) := fun e2 => h e2.symm
        simp only [hu, if_false, this, decide_False, decide_eq_false_iff_not]
        intro h3; exact hu ⟨h3.1, h3.2.1⟩
    · rw [min_eq_right e, max_eq_left e]
      have h1 : ¬ (0x41 ≤ tr ∧ tr ≤ 0x5A ∧ sr = tr + 0x20) := by omega
      have h2 : ¬ (0x41 ≤ sr ∧ sr ≤ 0x5A) := by omega
      have h3 : ¬ (sr = tr) := fun e2 => h e2.symm
      simp [h1, h2, h3]

theorem equalFoldRunes_lower (orbit : Nat → Nat → Bool) (s t : List Nat)
    (hs : ∀ r ∈ s, r < 0x80) (ht : ∀ r ∈ t, 0x61 ≤ r ∧ r ≤ 0x7A) :
    equalFoldRunes orbit s t = decide (s.map asciiLower = t) := by
  induction s generalizing t with
  | nil => cases t <;> simp [equalFoldRunes]
  | cons a as ih =>
    cases t with
    | nil => simp [equalFoldRunes]
    | cons b bs =>
      have h1 := foldRune_lower orbit a b (hs a (by simp)) (ht b (by simp))
      have h2 := ih bs (fun r hr => hs r (by simp [hr])) (fun r hr => ht r (by simp [hr]))
      simp only [equalFoldRunes, h1, h2, List.map_cons, List.cons.injEq]
      by_cases e1 : asciiLower a = b <;> by_cases e2 : List.map asciiLower as = bs <;>
        simp [e1, e2]

/-- On an all-ASCII status the comparison with the success indicator is
equality after ASCII lower-casing. -/
theorem EqualFold_success_ascii (orbit : Nat → Nat → Bool) (value : String)
    (h : ∀ c ∈ value.toList, c.toNat < 0x80) :
    (EqualFold orbit value "success" = true ↔
      value.toList.map (fun c => asciiLower c.toNat) = "success".toList.map Char.toNat) := by
  have ht : ∀ r ∈ "success".toList.map Char.toNat, 0x61 ≤ r ∧ r ≤ 0x7A := by decide
  have hs : ∀ r ∈ value.toList.map Char.toNat, r < 0x80 := by
    intro r hr
    obtain ⟨c, hc, rfl⟩ := List.mem_map.mp hr
    exact h c hc
  unfold EqualFold
  rw [equalFoldRunes_lower orbit _ _ hs ht]
  simp [List.map_map, Function.comp_def]

/-! ### Session lemmas -/

theorem GetConn_keeps (L : Library) (r : Sydney) (d : DialAttempt) :
    (GetConn L r d).1.invocationId = r.invocationId ∧ (GetConn L r d).1.Conv = r.Conv ∧
      (GetConn L r d).1.cfg = r.cfg := by
  unfold GetConn
  split
  · exact ⟨rfl, rfl, rfl⟩
  · split
    · exact ⟨rfl, rfl, rfl⟩
    · split <;> exact ⟨rfl, rfl, rfl⟩

theorem rereadFailed_keeps (L : Library) (conn : Nat) (redial : DialAttempt) (n : Nat) :
    ∀ r : Sydney,
      match rereadFailed L conn redial n r with
      | .panics r1 => r1.invocationId = r.invocationId
      | .gaveUp r1 => r1.invocationId = r.invocationId
      | .switched r1 _ => r1.invocationId = r.invocationId := by
  induction n with
  | zero => intro r; rfl
  | succ n ih =>
    intro r
    have hk := (GetConn_keeps L r redial).1
    rcases hg : GetConn L r redial with ⟨r1, (e | c)⟩
    · rw [hg] at hk
      simp only [rereadFailed, hg]
      exact hk
    · rw [hg] at hk
      simp only at hk
      simp only [rereadFailed, hg]
      by_cases hc : c = conn
      · simp only [hc, if_true]
        have := ih r1
        rw [hk] at this
        exact this
      · simp only [hc, if_false]
        exact hk

theorem readLoop_keeps (L : Library) (reads : List ReadEvent) :
    ∀ (r : Sydney) (conn : Nat) (out : List String),
      (readLoop L r conn reads out).1.invocationId = r.invocationId := by
  induction reads with
  | nil => intro r conn out; rfl
  | cons e es ih =>
    intro r conn out
    cases e with
    | chunk p =>
      simp only [readLoop]
      split
      · rfl
      · exact ih _ _ _
    | eof d =>
      have hk := rereadFailed_keeps L conn d (readErrLimit - 1) r
      simp only [readLoop]
      rcases hr : rereadFailed L conn d (readErrLimit - 1) r with r1 | r1 | ⟨r1, c⟩
      · rw [hr] at hk; exact hk
      · rw [hr] at hk; exact hk
      · rw [hr] at hk
        simp only at hk ⊢
        rw [ih, hk]
    | failure err => rfl

theorem buildQuestion_counter (L : Library) (r r2 : Sydney) (prompt traceId timestamp : String)
    (q : Except String (List Nat)) (h : buildQuestion L r prompt traceId timestamp = some (r2, q)) :
    r2.invocationId = wrapInt (r.invocationId + 1) := by
  unfold buildQuestion at h
  split at h
  · exact absurd h (by simp)
  · simp only [Option.some.injEq, Prod.mk.injEq] at h
    rw [← h.1]

theorem wrapInt_small (k : Int) (h0 : 0 ≤ k) (h1 : k < 2 ^ 63) : wrapInt k = k := by
  unfold wrapInt
  norm_num at h1 ⊢
  omega

/-- The counter after one call, by the way the call ended: a call that returns
a channel has counted once, a call that fails in its first `GetConn` has not
counted. -/
theorem Ask_counter (L : Library) (r : Sydney) (prompt : String) (env : AskEnv) :
    (∀ ch err, (Ask L r prompt env).2 = .returned (some ch) err →
      (Ask L r prompt env).1.invocationId = wrapInt (r.invocationId + 1)) ∧
    (∀ cause, (Ask L r prompt env).2 = .returned none (some { label := "get conn", cause := cause }) →
      (Ask L r prompt env).1.invocationId = r.invocationId) := by
  have hk := (GetConn_keeps L r env.dial1).1
  rcases hg : GetConn L r env.dial1 with ⟨r1, (e | c)⟩
  · rw [hg] at hk
    simp only [Ask, hg]
    exact ⟨fun ch e h => by simp at h, fun cause _ => hk⟩
  · rw [hg] at hk
    simp only at hk
    rcases hb : buildQuestion L r1 prompt env.traceId env.timestamp with _ | ⟨r2, (e | q)⟩
    · simp only [Ask, hg, hb]
      exact ⟨fun ch e h => by simp at h, fun cause h => by simp at h⟩
    · simp only [Ask, hg, hb]
      refine ⟨fun ch e h => by simp at h, fun cause h => ?_⟩
      simp only [AskResult.returned.injEq, Option.some.injEq, WrappedError.mk.injEq] at h
      exact absurd h.2.1 (by decide)
    · have hq := buildQuestion_counter L r1 r2 prompt env.traceId env.timestamp _ hb
      rcases hw : env.write1 with _ | e
      · simp only [Ask, hg, hb, hw]
        refine ⟨fun ch e _ => ?_, fun cause h => by simp at h⟩
        rw [readLoop_keeps, hq, hk]
      · rcases hg2 : GetConn L (Reset r2).1 env.dial2 with ⟨r4, (e2 | c2)⟩
        · simp only [Ask, hg, hb, hw, hg2]
          refine ⟨fun ch e h => by simp at h, fun cause h => ?_⟩
          simp only [AskResult.returned.injEq, Option.some.injEq, WrappedError.mk.injEq] at h
          exact absurd h.2.1 (by decide)
        · rcases hw2 : env.write2 with _ | e3
          · simp only [Ask, hg, hb, hw, hg2, hw2]
            exact ⟨fun ch e h => by simp at h, fun cause h => by simp at h⟩
          · simp only [Ask, hg, hb, hw, hg2, hw2]
            refine ⟨fun ch e h => by simp at h, fun cause h => ?_⟩
            simp only [AskResult.returned.injEq, Option.some.injEq, WrappedError.mk.injEq] at h
            exact absurd h.2.1 (by decide)

theorem askAll_counter (L : Library) (calls : List (String × AskEnv)) :
    ∀ r : Sydney, 0 ≤ r.invocationId → r.invocationId + calls.length < 2 ^ 63 →
      (∀ res ∈ (askAll L r calls).2, plainResult res) →
      (askAll L r calls).1.invocationId =
        r.invocationId + ((askAll L r calls).2.filter AskResult.hasChannel).length := by
  induction calls with
  | nil => intro r _ _ _; simp [askAll]
  | cons call calls ih =>
    intro r h0 hlen hres
    obtain ⟨prompt, env⟩ := call
    have hc := Ask_counter L r prompt env
    simp only [askAll] at hres ⊢
    generalize hA : Ask L r prompt env = a at hc hres ⊢
    obtain ⟨r1, res⟩ := a
    simp only [List.length_cons, Nat.cast_add, Nat.cast_one] at hlen
    cases res with
    | panicked =>
      have := hres .panicked (by simp)
      rcases this with ⟨ch, h⟩ | ⟨c, h⟩ <;> simp at h
    | returned answers err =>
      simp only [List.mem_cons, forall_eq_or_imp] at hres
      obtain ⟨hfirst, hrest⟩ := hres
      rcases hfirst with ⟨ch, h⟩ | ⟨c, h⟩
      · have h1 : r1.invocationId = wrapInt (r.invocationId + 1) := hc.1 ch none h
        rw [wrapInt_small _ (by omega) (by omega)] at h1
        have := ih r1 (by omega) (by omega) hrest
        simp only [AskResult.returned.injEq] at h
        rw [this, h1]
        simp [h.1, AskResult.hasChannel]
        omega
      · have h1 : r1.invocationId = r.invocationId := hc.2 c h
        have := ih r1 (by omega) (by omega) hrest
        simp only [AskResult.returned.injEq] at h
        rw [this, h1]
        simp [h.1, AskResult.hasChannel]

/-! ## Framing -/

/-- C5. For every byte buffer `p`, the segments the read loop hands to the
parser (split on 0x1E, zero-length pieces skipped) are, in order, exactly the
maximal non-empty runs of non-delimiter bytes of `p`: every segment is
non-empty and free of 0x1E, `decodeFrames p` is the one and only run
decomposition of `p`, and the message loop on the pieces of the split does what
it does on `decodeFrames p`. -/
theorem decodeFrames_maximal_runs (p : List Nat) :
    (∀ seg ∈ decodeFrames p, seg ≠ [] ∧ DELIMITER ∉ seg) ∧
    (∀ segs, RunsOf p segs ↔ segs = decodeFrames p) ∧
    (∀ (L : Library) (st : Bool × List String),
      handleMessages L (bytesSplit DELIMITER p) st = handleMessages L (decodeFrames p) st) :=
  ⟨fun seg h => mem_decodeFrames p seg h,
    fun segs => ⟨RunsOf_unique p segs, fun h => h ▸ RunsOf_decodeFrames p⟩,
    fun L st => handleMessages_split L p st⟩

/-- C5 at the buffer "A" 0x1E 0x1E "B" 0x1E: the decoding is ["A", "B"], and
this is a run decomposition of the buffer. -/
theorem decodeFrames_example :
    decodeFrames [0x41, 0x1e, 0x1e, 0x42, 0x1e] = [[0x41], [0x42]] ∧
    RunsOf [0x41, 0x1e, 0x1e, 0x42, 0x1e] [[0x41], [0x42]] :=
  ⟨by decide,
    ((decodeFrames_maximal_runs [0x41, 0x1e, 0x1e, 0x42, 0x1e]).2.1 [[0x41], [0x42]]).mpr
      (by decide)⟩

theorem decodeFrames_framed (datas : List (List Nat))
    (hd : ∀ d ∈ datas, d ≠ [] ∧ DELIMITER ∉ d) :
    decodeFrames (datas.map (fun d => d ++ [DELIMITER])).flatten = datas := by
  induction datas with
  | nil => simp [decodeFrames_nil]
  | cons d ds ih =>
    have h1 := hd d (by simp)
    have h2 := ih (fun x hx => hd x (by simp [hx]))
    rw [List.map_cons, List.flatten_cons, List.append_assoc,
      decodeFrames_run d _ h1.1 h1.2 (Or.inr (by simp)), List.singleton_append,
      decodeFrames_cons_delim, h2]

/-- C6. Round trip of the framing: when the messages `msgs` serialise to the
byte strings `datas`, each non-empty and free of 0x1E, `appendIdentifier` turns
each message into its byte string followed by exactly one 0x1E, and decoding
the concatenation of these frames gives back `datas`, in order. -/
theorem framing_round_trip (jsonMarshal : Message → Except String (List Nat))
    (msgs : List Message) (datas : List (List Nat))
    (hm : List.Forall₂ (fun m d => jsonMarshal m = .ok d) msgs datas)
    (hd : ∀ d ∈ datas, d ≠ [] ∧ DELIMITER ∉ d) :
    List.Forall₂ (fun m d => appendIdentifier jsonMarshal m = .ok (d ++ [DELIMITER])) msgs datas ∧
    decodeFrames (datas.map (fun d => d ++ [DELIMITER])).flatten = datas := by
  refine ⟨?_, decodeFrames_framed datas hd⟩
  induction hm with
  | nil => exact List.Forall₂.nil
  | cons h _ ih =>
    refine List.Forall₂.cons ?_ (ih (fun d hd2 => hd d (by simp [hd2])))
    simp [appendIdentifier, h]

/-- C6 at the handshake request followed by a question: each is framed with
one delimiter, and the two frames in a row decode to the two serialisations, in
order. -/
theorem framing_round_trip_example :
    List.Forall₂ (fun m d => appendIdentifier sampleLibrary.jsonMarshal m = .ok (d ++ [DELIMITER]))
      [Message.handshake, Message.question sampleQuestion] [handshakeJson, [0x5b, 0x30, 0x5d]] ∧
    decodeFrames ([handshakeJson, [0x5b, 0x30, 0x5d]].map (fun d => d ++ [DELIMITER])).flatten =
      [handshakeJson, [0x5b, 0x30, 0x5d]] :=
  framing_round_trip sampleLibrary.jsonMarshal [Message.handshake, Message.question sampleQuestion]
    [handshakeJson, [0x5b, 0x30, 0x5d]]
    (List.Forall₂.cons rfl (List.Forall₂.cons rfl List.Forall₂.nil)) (by decide)

/-! ## Terminal frames -/

/-- C3 as stated fails: a terminal frame whose status is "SUCCESS" does not
equal the literal "success", yet under no library is its fragment the failure
message "rate limited"; the fragment is the answer text "hello". -/
theorem upper_case_status_is_success :
    upperFrame._type = 2 ∧ upperFrame.value ≠ "success" ∧
    (¬ ∃ L : Library, terminalFragment L upperFrame = upperFrame.message) ∧
    terminalFragment sampleLibrary upperFrame = "hello" := by
  refine ⟨rfl, by decide, ?_, by decide⟩
  rintro ⟨L, h⟩
  have : terminalFragment L upperFrame = "hello" := rfl
  rw [this] at h
  exact absurd h (by decide)

/-- C3, amended. For every terminal (type 2) frame handled by the message loop
the loop sets `finished` and sends one fragment: `item.messages[1].text` when
`item.result.value` equals "success" under `strings.EqualFold` (case-insensitive
comparison), and `item.result.message` otherwise.  For an all-ASCII status the
comparison holds exactly when the ASCII lower-casing of the status is
"success"; in particular it holds for "success" itself. -/
theorem terminal_frame_fragment (L : Library) (st : Bool × List String) (message : List Nat)
    (hlen : message.length ≠ 0) (hterm : (L.gjson message)._type = 2) :
    handleMessage L st message =
      (true, st.2 ++ [if EqualFold L.orbit (L.gjson message).value "success" = true
        then (L.gjson message).text else (L.gjson message).message]) ∧
    ((∀ c ∈ (L.gjson message).value.toList, c.toNat < 0x80) →
      (EqualFold L.orbit (L.gjson message).value "success" = true ↔
        (L.gjson message).value.toList.map (fun c => asciiLower c.toNat) =
          "success".toList.map Char.toNat)) ∧
    ((L.gjson message).value = "success" →
      handleMessage L st message = (true, st.2 ++ [(L.gjson message).text])) := by
  have hmain : handleMessage L st message =
      (true, st.2 ++ [if EqualFold L.orbit (L.gjson message).value "success" = true
        then (L.gjson message).text else (L.gjson message).message]) := by
    simp only [handleMessage, hlen, hterm, terminalFragment, if_false]
    by_cases h : EqualFold L.orbit (L.gjson message).value "success" = true <;> simp [h]
  refine ⟨hmain, EqualFold_success_ascii L.orbit _, fun hv => ?_⟩
  rw [hmain, hv, EqualFold_self]
  simp

/-- C3 amended, at the two frames of the specification: status "success" with
second text "hello" sends "hello", status "error" with message "rate limited"
sends "rate limited". -/
theorem terminal_frame_fragment_example :
    handleMessage sampleLibrary (false, []) successSegment = (true, ["hello"]) ∧
    handleMessage sampleLibrary (false, []) errorSegment = (true, ["rate limited"]) :=
  ⟨by
    have h := (terminal_frame_fragment sampleLibrary (false, []) successSegment
      (by decide) (by decide)).1
    rw [h]; decide,
   by
    have h := (terminal_frame_fragment sampleLibrary (false, []) errorSegment
      (by decide) (by decide)).1
    rw [h]; decide⟩

/-! ## The read loop -/

/-- C4 as stated fails: a chunk holding two terminal frames sends two
fragments before the channel is closed, under every library that reads the two
segments as the terminal frames they are. -/
theorem two_terminal_frames_two_fragments :
    (readLoop sampleLibrary sampleSession 1 [.chunk twoTerminals] []).2 =
      { fragments := ["hello", "rate limited"], closed := true } ∧
    ¬ ∃ L : Library, L.gjson successSegment = successFrame ∧ L.gjson errorSegment = errorFrame ∧
      (readLoop L sampleSession 1 [.chunk twoTerminals] []).2.fragments.length = 1 := by
  refine ⟨by decide, ?_⟩
  rintro ⟨L, h1, h2, h3⟩
  have hd : decodeFrames twoTerminals = [successSegment, errorSegment] := by decide
  have t1 : isTerminal L successSegment = true := by simp [isTerminal, h1, successFrame]
  have t2 : isTerminal L errorSegment = true := by simp [isTerminal, h2, errorFrame]
  rw [readLoop_chunk, hd] at h3
  simp [terminalFragments, t1, t2] at h3

/-- C4, amended. When the reads before it deliver chunks without a terminal
frame and a chunk `p` holds a terminal frame, the loop ends with `p`: whatever
reads would follow (`rest`) are not made, the channel is closed, and it holds
the fragments of the terminal frames of `p`, in order, one for each of them
(so exactly one when `p` holds a single terminal frame). -/
theorem readLoop_ends_with_terminal_chunk (L : Library) (r : Sydney) (conn : Nat)
    (pre : List ReadEvent) (p : List Nat) (rest : List ReadEvent)
    (hpre : ∀ e ∈ pre, quietChunk L e)
    (hterm : ∃ seg ∈ decodeFrames p, isTerminal L seg = true) :
    readLoop L r conn (pre ++ .chunk p :: rest) [] =
      (r, { fragments := terminalFragments L (decodeFrames p), closed := true }) ∧
    (terminalFragments L (decodeFrames p)).length = (decodeFrames p).countP (isTerminal L) := by
  constructor
  · rw [readLoop_quiet L r conn pre _ [] hpre, readLoop_chunk]
    have hany : (decodeFrames p).any (isTerminal L) = true := by
      obtain ⟨seg, hs, ht⟩ := hterm
      exact List.any_eq_true.mpr ⟨seg, hs, ht⟩
    simp [hany]
  · simp [terminalFragments, List.countP_eq_length_filter]

/-- C4 amended, at a delta chunk followed by a chunk with one terminal frame
and a further chunk that is never read: the channel holds "hello" and is
closed. -/
theorem readLoop_ends_with_terminal_chunk_example :
    readLoop sampleLibrary sampleSession 1
        ([.chunk (deltaSegment ++ [DELIMITER])] ++
          .chunk (successSegment ++ [DELIMITER]) :: [.chunk (errorSegment ++ [DELIMITER])]) [] =
      (sampleSession, { fragments := ["hello"], closed := true }) := by
  have h := (readLoop_ends_with_terminal_chunk sampleLibrary sampleSession 1
    [.chunk (deltaSegment ++ [DELIMITER])] (successSegment ++ [DELIMITER])
    [.chunk (errorSegment ++ [DELIMITER])]
    (by
      intro e he
      simp only [List.mem_singleton] at he
      subst he
      show ∀ seg ∈ decodeFrames (deltaSegment ++ [DELIMITER]), isTerminal sampleLibrary seg = false
      decide)
    (by decide)).1
  rw [h]
  decide

/-! ## Ask -/

theorem GetConn_ok_conn (L : Library) (r : Sydney) (d : DialAttempt) (c : Nat)
    (h : (GetConn L r d).2 = .ok c) : (GetConn L r d).1.conn = some c := by
  unfold GetConn at h ⊢
  cases hc : r.conn with
  | some c0 =>
    simp only [hc, Except.ok.injEq] at h ⊢
    rw [h]
  | none =>
    simp only [hc] at h ⊢
    cases hd : d.dial with
    | error e => simp [hd] at h
    | ok c1 =>
      simp only [hd] at h ⊢
      cases hh : Handshake L d <;> simp [hh] at h ⊢
      exact h

theorem buildQuestion_conn (L : Library) (r r2 : Sydney) (prompt traceId timestamp : String)
    (q : Except String (List Nat)) (h : buildQuestion L r prompt traceId timestamp = some (r2, q)) :
    r2.conn = r.conn := by
  unfold buildQuestion at h
  split at h
  · exact absurd h (by simp)
  · simp only [Option.some.injEq, Prod.mk.injEq] at h
    rw [← h.1]

theorem GetConn_dial (L : Library) (r : Sydney) (d : DialAttempt) (c : Nat)
    (hr : r.conn = none) (hd : d.dial = .ok c) (hh : Handshake L d = none) :
    GetConn L r d = ({ r with conn := some c }, .ok c) := by
  simp [GetConn, hr, hd, hh]

/-- C1, the behaviour of the code on the retry path: when the connection is
made and the question is built, the first write fails, the reconnection and its
handshake succeed and the second write succeeds, `Ask` returns a nil channel
together with a nil error. -/
theorem Ask_retry_returns_nil_nil (L : Library) (r : Sydney) (prompt : String) (env : AskEnv)
    (hconn : ∃ c, (GetConn L r env.dial1).2 = .ok c)
    (hq : ∃ r2 q, buildQuestion L (GetConn L r env.dial1).1 prompt env.traceId env.timestamp =
      some (r2, .ok q))
    (hw1 : env.write1 ≠ none)
    (hdial : ∃ c2, env.dial2.dial = .ok c2)
    (hshake : Handshake L env.dial2 = none)
    (hw2 : env.write2 = none) :
    (Ask L r prompt env).2 = .returned none none := by
  obtain ⟨c, hc⟩ := hconn
  obtain ⟨r2, q, hb⟩ := hq
  obtain ⟨c2, hd⟩ := hdial
  rcases hg : GetConn L r env.dial1 with ⟨r1, res⟩
  rw [hg] at hc hb
  simp only at hc hb
  subst hc
  rcases hw : env.write1 with _ | e
  · exact absurd hw hw1
  · have hreset : (Reset r2).1.conn = none := by
      unfold Reset; split
      · rfl
      · next h => exact h
    simp only [Ask, hg, hb, hw, GetConn_dial L _ env.dial2 c2 hreset hd hshake, hw2]

/-- C1 at a concrete turn: first write fails, reconnection works, second write
succeeds; the caller receives neither a channel nor an error. -/
theorem Ask_retry_returns_nil_nil_example :
    (Ask sampleLibrary sampleSession "hi" retryTurn).2 = .returned none none :=
  Ask_retry_returns_nil_nil sampleLibrary sampleSession "hi" retryTurn
    ⟨1, rfl⟩ ⟨_, _, rfl⟩ (by decide) ⟨2, rfl⟩ rfl rfl

/-- When the first write succeeds, `Ask` returns a channel and a nil error. -/
theorem Ask_first_write_ok (L : Library) (r : Sydney) (prompt : String) (env : AskEnv)
    (c : Nat) (r2 : Sydney) (q : List Nat)
    (hconn : (GetConn L r env.dial1).2 = .ok c)
    (hq : buildQuestion L (GetConn L r env.dial1).1 prompt env.traceId env.timestamp =
      some (r2, .ok q))
    (hw1 : env.write1 = none) :
    Ask L r prompt env =
      ((readLoop L r2 c env.reads []).1,
        .returned (some (readLoop L r2 c env.reads []).2) none) := by
  rcases hg : GetConn L r env.dial1 with ⟨r1, res⟩
  rw [hg] at hconn hq
  simp only at hconn hq
  subst hconn
  simp only [Ask, hg, hq, hw1]

/-- C7, the behaviour of the code when a read returns `io.EOF`: in a turn whose
connection is made and whose question is built and written at the first
attempt, if after any number of chunks without a terminal frame a read returns
`io.EOF`, then nothing that the list holds after it is read, not even a chunk
with a terminal success frame: `GetConn` hands back the connection that failed,
the read is repeated on it and fails again until the library panics.  `Ask` has
returned a channel and a nil error; the channel receives no fragment and is
never closed. -/
theorem Ask_end_of_stream_never_recovers (L : Library) (r : Sydney) (prompt : String)
    (env : AskEnv) (pre rest : List ReadEvent) (redial : DialAttempt)
    (hconn : ∃ c, (GetConn L r env.dial1).2 = .ok c)
    (hq : ∃ r2 q, buildQuestion L (GetConn L r env.dial1).1 prompt env.traceId env.timestamp =
      some (r2, .ok q))
    (hw1 : env.write1 = none)
    (hreads : env.reads = pre ++ .eof redial :: rest)
    (hpre : ∀ e ∈ pre, quietChunk L e) :
    (Ask L r prompt env).2 =
      .returned (some { fragments := [], closed := false, panicked := true }) none := by
  obtain ⟨r2, q, hb⟩ := hq
  obtain ⟨c, hc⟩ := hconn
  have hc1 := GetConn_ok_conn L r env.dial1 c hc
  have hc2 : r2.conn = some c := by
    rw [buildQuestion_conn L _ r2 prompt env.traceId env.timestamp _ hb]; exact hc1
  rw [Ask_first_write_ok L r prompt env c r2 q hc hb hw1, hreads,
    readLoop_quiet L r2 c pre _ [] hpre, readLoop_eof_held L r2 c redial rest [] hc2]

/-- C7 at a concrete turn: the first read returns `io.EOF` and the list goes on
with a chunk holding the terminal success frame with text "hello"; the channel
stays empty and open and the goroutine panics. -/
theorem Ask_end_of_stream_never_recovers_example :
    (Ask sampleLibrary sampleSession "hi" eofTurn).2 =
      .returned (some { fragments := [], closed := false, panicked := true }) none :=
  Ask_end_of_stream_never_recovers sampleLibrary sampleSession "hi" eofTurn []
    [.chunk (deltaSegment ++ [DELIMITER] ++ successSegment ++ [DELIMITER])] (dialOk 3)
    ⟨1, rfl⟩ ⟨_, _, rfl⟩ rfl rfl (by simp)

/-! ## The invocation counter -/

theorem askAll_length (L : Library) (calls : List (String × AskEnv)) :
    ∀ r : Sydney, AskResult.panicked ∉ (askAll L r calls).2 →
      (askAll L r calls).2.length = calls.length := by
  induction calls with
  | nil => intro r _; simp [askAll]
  | cons call calls ih =>
    intro r h
    obtain ⟨prompt, env⟩ := call
    simp only [askAll] at h ⊢
    generalize Ask L r prompt env = a at h ⊢
    obtain ⟨r1, res⟩ := a
    cases res with
    | panicked => simp at h
    | returned answers err =>
      simp only [List.mem_cons, not_or] at h
      simp [ih r1 h.2]

/-- C2 as stated fails: one call whose connection attempt is refused leaves the
counter of a fresh session at 0, not 1; and a third call whose first write
fails leaves the counter at 0, not 3, without the caller having called
`Reset`. -/
theorem failed_calls_do_not_count :
    (askAll sampleLibrary sampleSession [("hi", refusedTurn)]).2.length = 1 ∧
    (askAll sampleLibrary sampleSession [("hi", refusedTurn)]).1.invocationId = 0 ∧
    (askAll sampleLibrary sampleSession
      [("a", plainTurn), ("b", plainTurn), ("c", retryTurn)]).2.length = 3 ∧
    (askAll sampleLibrary sampleSession
      [("a", plainTurn), ("b", plainTurn), ("c", retryTurn)]).1.invocationId = 0 := by
  decide

/-- C2, amended. For a session whose counter is 0 (as after creation or
`Reset`) and fewer than 2^63 successive calls of `Ask`, each of which either
returns a channel with a nil error or fails in its first `GetConn`,
`invocationId` afterwards equals the number of calls that returned a channel: a
call that cannot connect does not count.  When every call returns a channel the
counter equals the number of calls. -/
theorem invocationId_counts_channels (L : Library) (r : Sydney)
    (calls : List (String × AskEnv))
    (hfresh : r.invocationId = 0)
    (hlen : calls.length < 2 ^ 63)
    (hres : ∀ res ∈ (askAll L r calls).2, plainResult res) :
    (askAll L r calls).1.invocationId =
      ((askAll L r calls).2.filter AskResult.hasChannel).length ∧
    ((∀ res ∈ (askAll L r calls).2, res.hasChannel = true) →
      (askAll L r calls).1.invocationId = calls.length) := by
  have hmain := askAll_counter L calls r (by omega)
    (by rw [hfresh]; have : (calls.length : Int) < 2 ^ 63 := by exact_mod_cast hlen
        omega) hres
  rw [hfresh, zero_add] at hmain
  refine ⟨hmain, fun hall => ?_⟩
  have hnp : AskResult.panicked ∉ (askAll L r calls).2 := by
    intro hmem
    have := hall _ hmem
    simp [AskResult.hasChannel] at this
  rw [hmain, List.filter_eq_self.mpr hall, askAll_length L calls r hnp]

/-- C2 amended, at three calls: the first cannot connect, the next two return
a channel; the counter is 2. -/
theorem invocationId_counts_channels_example :
    (askAll sampleLibrary sampleSession
      [("a", refusedTurn), ("b", plainTurn), ("c", plainTurn)]).1.invocationId = 2 := by
  have h := (invocationId_counts_channels sampleLibrary sampleSession
    [("a", refusedTurn), ("b", plainTurn), ("c", plainTurn)] rfl (by norm_num)
    (by
      intro res hres
      have hall : (askAll sampleLibrary sampleSession
          [("a", refusedTurn), ("b", plainTurn), ("c", plainTurn)]).2 =
          [.returned none (some { label := "get conn", cause := "dial tcp: connection refused" }),
           .returned (some { fragments := ["hello"], closed := true }) none,
           .returned (some { fragments := ["hello"], closed := true }) none] := by decide
      rw [hall] at hres
      simp only [List.mem_cons, List.mem_singleton, List.not_mem_nil, or_false] at hres
      rcases hres with h | h | h
      · exact Or.inr ⟨_, h⟩
      · exact Or.inl ⟨_, h⟩
      · exact Or.inl ⟨_, h⟩)).1
  rw [h]
  decide

/-! ## Conversation negotiation -/

/-- C9 as stated fails: a 200 response whose body has a conversation id and a
signature and no client id is accepted without error, and the identity
installed has an empty `ClientId`. -/
theorem missing_client_id_accepted :
    CreateConversation sampleSession
        { proxyParse := none, reply := .ok (200, .parsed "body" noClientConv) } =
      ({ sampleSession with Conv := some noClientConv }, none) ∧
    noClientConv.ClientId = "" := by
  decide

/-- C9, amended. Whenever `CreateConversation` returns no error, the response
had status 200 and a body that parsed, the parsed conversation is installed in
the session, and its `ConversationId` and `ConversationSignature` are non-empty
(and its result value is not the rejection sentinel).  `ClientId` is not
checked. -/
theorem CreateConversation_success (r : Sydney) (x : Exchange)
    (h : (CreateConversation r x).2 = none) :
    ∃ raw conv, x.reply = .ok (StatusOK, .parsed raw conv) ∧
      CreateConversation r x = ({ r with Conv := some conv }, none) ∧
      conv.ConversationId ≠ "" ∧ conv.ConversationSignature ≠ "" ∧
      conv.ResultValue ≠ "UnauthorizedRequest" := by
  unfold CreateConversation at h ⊢
  split at h
  · simp at h
  · next hproxy =>
    cases hr : x.reply with
    | error e => simp [hr] at h
    | ok sb =>
      obtain ⟨status, body⟩ := sb
      simp only [hr] at h ⊢
      by_cases hs : status = StatusOK
      · simp only [hs, ne_eq, not_true_eq_false, if_false] at h ⊢
        cases body with
        | readError e => simp at h
        | parseError e => simp at h
        | parsed raw conv =>
          simp only at h ⊢
          by_cases hu : conv.ResultValue = "UnauthorizedRequest"
          · simp [hu] at h
          · by_cases he : conv.ConversationId = "" ∨ conv.ConversationSignature = ""
            · simp [hu, he] at h
            · refine ⟨raw, conv, rfl, ?_, fun e => he (Or.inl e), fun e => he (Or.inr e), hu⟩
              simp only [hu, he, if_false]
      · simp [hs] at h

/-- C9 amended, at a 200 response carrying a full identity. -/
theorem CreateConversation_success_example :
    ∃ raw conv,
      (Exchange.mk none (.ok (200, .parsed "body" sampleConv))).reply =
        .ok (StatusOK, .parsed raw conv) ∧
      CreateConversation (NewSydney sampleSession.cfg)
          (Exchange.mk none (.ok (200, .parsed "body" sampleConv))) =
        ({ NewSydney sampleSession.cfg with Conv := some conv }, none) ∧
      conv.ConversationId ≠ "" ∧ conv.ConversationSignature ≠ "" ∧
      conv.ResultValue ≠ "UnauthorizedRequest" :=
  CreateConversation_success (NewSydney sampleSession.cfg)
    (Exchange.mk none (.ok (200, .parsed "body" sampleConv))) (by decide)

/-! ## Reset -/

/-- C10. For every session, `Reset` leaves it with no connection and
`invocationId = 0`, changes neither `Conv` nor the configuration, closes
exactly the connection the session held (if any), and is idempotent: a second
`Reset` changes nothing and closes nothing. -/
theorem Reset_effect (r : Sydney) :
    (Reset r).1 = { r with conn := none, invocationId := 0 } ∧
    (Reset r).1.conn = none ∧ (Reset r).1.invocationId = 0 ∧
    (Reset r).1.Conv = r.Conv ∧ (Reset r).1.cfg = r.cfg ∧
    (Reset r).2 = r.conn.toList ∧
    Reset (Reset r).1 = ((Reset r).1, []) := by
  obtain ⟨cfg, conv, inv, conn⟩ := r
  cases conn <;> simp [Reset]

/-- C10 at a session with connection 7 and counter 5. -/
theorem Reset_example :
    Reset { sampleSession with conn := some 7, invocationId := 5 } =
      ({ sampleSession with conn := none, invocationId := 0 }, [7]) ∧
    Reset (Reset { sampleSession with conn := some 7, invocationId := 5 }).1 =
      ({ sampleSession with conn := none, invocationId := 0 }, []) := by
  have h := Reset_effect { sampleSession with conn := some 7, invocationId := 5 }
  exact ⟨by decide, by rw [h.2.2.2.2.2.2]; decide⟩

end sydney

namespace tg

theorem step_cfg (b : Bot) (e : Event) : (step b e).1.cfg = b.cfg := by
  cases e <;> simp only [step] <;> split <;> rfl

theorem run_cfg (b : Bot) (es : List Event) : (run b es).cfg = b.cfg := by
  induction es generalizing b with
  | nil => rfl
  | cons e es ih => rw [run, ih, step_cfg]

theorem gateOk_step (u : String) (b : Bot) (e : Event) (h : gateOk u b)
    (he : evictsOnlyIdle u b [e] = true) : gateOk u (step b e).1 := by
  obtain ⟨h1, h2⟩ := h
  cases e with
  | update v =>
    simp only [step]
    by_cases hp : GetProcessed b v = true
    · rw [if_pos hp]; exact ⟨h1, h2⟩
    · rw [if_neg hp]
      by_cases hv : u = v
      · subst hv
        have h0 : b.inFlight u = 0 := by
          by_contra hne
          have := h2 (Nat.pos_of_ne_zero hne)
          simp [GetProcessed, this] at hp
        simp [gateOk, SetProcessed, h0]
      · simp only [gateOk, SetProcessed, hv, if_false]; exact ⟨h1, h2⟩
  | getSydney v created =>
    simp only [step]
    split <;> exact ⟨h1, h2⟩
  | handlerDone v =>
    simp only [step]
    split
    · by_cases hv : u = v
      · subst hv
        have : b.inFlight u - 1 = 0 := by omega
        simp [gateOk, SetProcessed, this]
      · simp only [gateOk, SetProcessed, hv, if_false]; exact ⟨h1, h2⟩
    · exact ⟨h1, h2⟩
  | evicted v =>
    simp only [step]
    split
    · by_cases hv : u = v
      · subst hv
        have h0 : b.inFlight u = 0 := by
          simpa [evictsOnlyIdle] using he
        simp [gateOk, DeleteProcessed, h0]
      · simp only [gateOk, DeleteProcessed, hv, if_false]; exact ⟨h1, h2⟩
    · exact ⟨h1, h2⟩

theorem gateOk_run (u : String) (es : List Event) :
    ∀ b : Bot, gateOk u b → evictsOnlyIdle u b es = true → gateOk u (run b es) := by
  induction es with
  | nil => intro b h _; exact h
  | cons e es ih =>
    intro b h he
    simp only [evictsOnlyIdle, Bool.and_eq_true] at he
    exact ih _ (gateOk_step u b e h (by
      simp only [evictsOnlyIdle, Bool.and_true]; exact he.1)) he.2

/-- C8 as stated fails: user u1 sends a message and its handler fetches the
session; the cache entry is evicted while the handler still runs, which deletes
the busy mark; the next message of u1 is accepted without a reply, and two
handlers of u1 are in flight. -/
theorem eviction_reopens_gate :
    (run (NewBot sampleConfig)
      [.update "u1", .getSydney "u1" true, .evicted "u1"]).inFlight "u1" = 1 ∧
    (step (run (NewBot sampleConfig) [.update "u1", .getSydney "u1" true, .evicted "u1"])
      (.update "u1")).2 = none ∧
    (run (NewBot sampleConfig)
      [.update "u1", .getSydney "u1" true, .evicted "u1", .update "u1"]).inFlight "u1" = 2 := by
  decide

/-- C8, amended. In every state the dispatcher reaches from `NewBot` by a
sequence of steps in which the cache entry of user `u` is never evicted while a
handler of `u` is in flight, at most one handler of `u` is in flight, and while
one is in flight a message arriving for `u` is rejected: the state stays as it
is and the repeated-answer reply is sent. -/
theorem gate_one_in_flight (cfg : TelegramBotConfig) (u : String) (es : List Event)
    (hevict : evictsOnlyIdle u (NewBot cfg) es = true) :
    (run (NewBot cfg) es).inFlight u ≤ 1 ∧
    (0 < (run (NewBot cfg) es).inFlight u →
      step (run (NewBot cfg) es) (.update u) = (run (NewBot cfg) es, some cfg.RepeatedAnswer)) := by
  have hinit : gateOk u (NewBot cfg) := ⟨by simp [NewBot], by simp [NewBot]⟩
  obtain ⟨h1, h2⟩ := gateOk_run u es (NewBot cfg) hinit hevict
  refine ⟨h1, fun hpos => ?_⟩
  have hp : GetProcessed (run (NewBot cfg) es) u = true := by simp [GetProcessed, h2 hpos]
  have hc : (run (NewBot cfg) es).cfg = cfg := run_cfg _ _
  simp [step, hp, hc]

/-- C8 amended, at a run in which u1 is handled, evicted when idle and
handled again, with a second message arriving during the second handling. -/
theorem gate_one_in_flight_example :
    (run (NewBot sampleConfig)
      [.update "u1", .getSydney "u1" true, .handlerDone "u1", .evicted "u1",
        .update "u1"]).inFlight "u1" = 1 ∧
    (step (run (NewBot sampleConfig)
      [.update "u1", .getSydney "u1" true, .handlerDone "u1", .evicted "u1", .update "u1"])
      (.update "u1")).2 = some "still working on your last message" := by
  have h := gate_one_in_flight sampleConfig "u1"
    [.update "u1", .getSydney "u1" true, .handlerDone "u1", .evicted "u1", .update "u1"]
    (by decide)
  refine ⟨by decide, ?_⟩
  rw [h.2 (by decide)]
  rfl

end tg
